import Mathlib

/-!
Verification of the startup orchestration script `start_services.py`
(repository innerline/local-ai-packaged).

The script is sequential shell-command orchestration: it syncs a Supabase
checkout, copies an environment file, injects a generated secret into the
SearXNG settings file, toggles a `cap_drop` hardening directive in
`docker-compose.yml`, cleans up conflicting containers, and then starts the
two compose stacks in order with a fixed settling delay and a single retry.

We embed the text-manipulation primitives the script relies on
(`str.replace` / `sed s|pat|rep|g`, substring tests via the Python `in`
operator, `str.strip` and `str.split`) as executable functions on
`List Char`, and the command/orchestration layer as pure functions from an
oracle describing the environment (which external commands fail, what their
standard output is, which files exist with what content) to the resulting
file states and to the trace of commands and events the script produces.
-/

namespace StartServices

/-! ### Text primitives -/

/-- Python substring test `pat in s`, on character lists: true when some
occurrence of `pat` appears contiguously inside `s`. -/
def containsSub (pat : List Char) : List Char → Bool
  | [] => pat.isEmpty
  | c :: rest => pat.isPrefixOf (c :: rest) || containsSub pat rest

/-- Whitespace characters removed by Python `str.strip()`. -/
def isPySpace (c : Char) : Bool :=
  c = ' ' || c = '\t' || c = '\n' || c = '\r' || c = '\x0b' || c = '\x0c'

/-- Python `str.strip()`: drop leading and trailing whitespace. -/
def stripWS (s : List Char) : List Char :=
  ((s.dropWhile isPySpace).reverse.dropWhile isPySpace).reverse

/-- Python `str.split(chr)` for a single separator character: splits at every
occurrence, keeping empty fields. -/
def splitOnChar (sep : Char) : List Char → List (List Char)
  | [] => [[]]
  | c :: rest =>
    if c = sep then [] :: splitOnChar sep rest
    else
      match splitOnChar sep rest with
      | [] => [[c]]
      | l :: ls => (c :: l) :: ls

/-- Python `s.strip().split(backslash-n)` as used on captured stdout. -/
def stdoutLines (s : List Char) : List (List Char) :=
  splitOnChar '\n' (stripWS s)

/-- Fuel-indexed worker for `replaceAll`.  Scans left to right; whenever the
(nonempty) pattern is a prefix of the remaining input it emits the
replacement and skips the matched characters, exactly like Python
`str.replace(pat, rep)` and like `sed s|pat|rep|g` for patterns that do not
contain a newline.  The fuel argument only makes the recursion structural;
it is always instantiated with the length of the input, which suffices. -/
def replaceAllAux (pat rep : List Char) : Nat → List Char → List Char
  | _, [] => []
  | 0, s => s
  | fuel + 1, c :: rest =>
    if pat ≠ [] ∧ pat.isPrefixOf (c :: rest) then
      rep ++ replaceAllAux pat rep fuel (List.drop pat.length (c :: rest))
    else
      c :: replaceAllAux pat rep fuel rest

/-- Python `s.replace(pat, rep)` for a nonempty pattern: replace every
non-overlapping occurrence of `pat` in `s` by `rep`, scanning left to
right. -/
def replaceAll (pat rep s : List Char) : List Char :=
  replaceAllAux pat rep s.length s

/-! ### Exceptions -/

/-- Python exception classes relevant to the script: `CalledProcessError`
(nonzero exit under `check=True`), `TypeError` (bad call), and OS-level
errors from file operations. -/
inductive PyExc where
  | calledProcessError
  | typeError
  | osError
  deriving DecidableEq

/-! ### Compose patch: check_and_fix_docker_compose_for_searxng -/

/-- Observable behaviour of the two probe commands run by
`check_and_fix_docker_compose_for_searxng`: the
`docker ps --filter name=searxng` listing (which may raise) and the
`docker exec ... [ -f /etc/searxng/uwsgi.ini ]` probe run with
`check=False` (which may still raise on OS-level failure). -/
structure Probe where
  psRaises : Bool
  psStdout : List Char
  execRaises : Bool
  execStdout : List Char

/-- The active security directive searched for in `docker-compose.yml`. -/
def capDropActive : List Char := "cap_drop: - ALL".toList

/-- The commented-out sentinel the script writes for a first run. -/
def capDropSentinel : List Char :=
  "# cap_drop: - ALL  # Temporarily commented out for first run".toList

/-- Token tested with the Python `in` operator against the probe output. -/
def foundToken : List Char := "found".toList

/-- Lines 326-357 of the script: `is_first_run` starts `True`; if
`docker ps` succeeds and lists a (nonempty) searxng container name, the
script execs into it and tests `"found" in stdout`; on that test it flips
to not-first-run, otherwise stays first-run; any exception along the way
leaves first-run assumed. -/
def searxng_is_first_run (p : Probe) : Bool :=
  if p.psRaises then true
  else
    let searxng_containers := stdoutLines p.psStdout
    if searxng_containers.any (fun n => !n.isEmpty) then
      if p.execRaises then true
      else if containsSub foundToken p.execStdout then false
      else true
    else true

/-- Events reported by the compose-patch stage. -/
inductive FixEvent where
  | warnComposeMissing
  | wroteRelaxed
  | wroteHardened
  deriving DecidableEq

/-- Lines 313-379 of the script.  The compose file is `none` when absent
(warn and return).  Otherwise: on first run with the active directive in
the content, write back the content with every occurrence replaced by the
sentinel; when not a first run and the sentinel is present, write back the
content with the sentinel replaced by the active directive; otherwise no
write happens.  The second component records which write (if any) was
performed. -/
def check_and_fix_docker_compose_for_searxng (p : Probe) (compose : Option (List Char)) :
    Option (List Char) × List FixEvent :=
  match compose with
  | none => (none, [FixEvent.warnComposeMissing])
  | some content =>
    let is_first_run := searxng_is_first_run p
    if is_first_run && containsSub capDropActive content then
      (some (replaceAll capDropActive capDropSentinel content), [FixEvent.wroteRelaxed])
    else if !is_first_run && containsSub capDropSentinel content then
      (some (replaceAll capDropSentinel capDropActive content), [FixEvent.wroteHardened])
    else
      (some content, [])

/-! ### Secret provisioning: generate_searxng_secret_key -/

/-- File-system state touched by the secret-provisioning stage: contents of
`searxng/settings-base.yml` and `searxng/settings.yml` (`none` = missing). -/
structure SearxFS where
  settingsBase : Option (List Char)
  settings : Option (List Char)
  deriving DecidableEq

/-- Outcomes of the external operations the stage performs: whether the
template copy raises, whether the key-generation command raises and what
(stripped) key text it outputs, and whether the substitution command exits
nonzero. -/
structure GenOracle where
  copyFails : Bool
  opensslFails : Bool
  key : List Char
  sedFails : Bool

/-- Log events of the secret-provisioning stage. -/
inductive GenEvent where
  | warnBaseMissing
  | createdFromBase
  | errCreatingSettings
  | settingsExisted
  | keyGenerated
  | errSecretKey
  deriving DecidableEq

/-- The placeholder token substituted in the settings file. -/
def ultrasecretkey : List Char := "ultrasecretkey".toList

/-- The sixteen lowercase hexadecimal characters: every character that the
`openssl rand -hex 32` output (and its PowerShell equivalent) can contain. -/
def hexLowerChars : List Char := "0123456789abcdef".toList

/-- Model of `openssl rand -hex 32` via `subprocess.check_output`: raises
on failure, otherwise returns the stripped key text. -/
def opensslRandHex32 (o : GenOracle) : Except PyExc (List Char) :=
  if o.opensslFails then Except.error PyExc.calledProcessError else Except.ok o.key

/-- Model of the in-place substitution `sed -i s|ultrasecretkey|key|g` on
the settings file, run with `check=True`: raises on a nonzero exit,
otherwise replaces every occurrence of the placeholder.  The Windows
PowerShell branch and the macOS `sed -i ""` branch perform the same
literal global substitution, so all three platform branches share this
model. -/
def sedReplaceInSettings (o : GenOracle) (key : List Char) (fs : SearxFS) :
    Except PyExc SearxFS :=
  if o.sedFails then Except.error PyExc.calledProcessError
  else Except.ok { fs with settings := fs.settings.map (replaceAll ultrasecretkey key) }

/-- Lines 266-311: the try-block around key generation and substitution.
Any exception from either step is caught by the shared handler, which
prints manual remediation commands and lets the stage return normally. -/
def genInjectKey (o : GenOracle) (fs : SearxFS) (evs : List GenEvent) :
    Except PyExc (SearxFS × List GenEvent) :=
  match opensslRandHex32 o with
  | Except.error _ => Except.ok (fs, evs ++ [GenEvent.errSecretKey])
  | Except.ok key =>
    match sedReplaceInSettings o key fs with
    | Except.error _ => Except.ok (fs, evs ++ [GenEvent.errSecretKey])
    | Except.ok fs2 => Except.ok (fs2, evs ++ [GenEvent.keyGenerated])

/-- Lines 241-311 of the script.  Missing template: warn and return.
Missing settings file: copy it from the template inside a try-block whose
handler prints the error and returns.  Then inject the generated key.  The
result is an `Except` to make visible that every internal exception is
handled: the stage itself always returns `ok`. -/
def generate_searxng_secret_key (o : GenOracle) (fs : SearxFS) :
    Except PyExc (SearxFS × List GenEvent) :=
  match fs.settingsBase with
  | none => Except.ok (fs, [GenEvent.warnBaseMissing])
  | some baseContent =>
    match fs.settings with
    | none =>
      match (if o.copyFails then Except.error PyExc.osError
             else Except.ok { fs with settings := some baseContent } :
             Except PyExc SearxFS) with
      | Except.error _ => Except.ok (fs, [GenEvent.errCreatingSettings])
      | Except.ok fs1 => genInjectKey o fs1 [GenEvent.createdFromBase]
    | some _ => genInjectKey o fs [GenEvent.settingsExisted]

/-- The state and log produced by a run of the secret-provisioning stage
(total, since the stage handles every internal exception). -/
def genResult (o : GenOracle) (fs : SearxFS) : SearxFS × List GenEvent :=
  match generate_searxng_secret_key o fs with
  | Except.ok r => r
  | Except.error _ => (fs, [])

/-! ### Conflict cleanup: cleanup_stray_containers and comprehensive_cleanup -/

/-- Docker commands issued by the cleanup passes. -/
inductive DCmd where
  | psAllFilterN8n
  | inspectRunning (name : List Char)
  | inspectName (name : List Char)
  | rmF (name : List Char)
  | networkPruneF
  deriving DecidableEq

/-- Result of a completed external command. -/
structure CmdResult where
  returncode : Nat
  stdout : List Char
  deriving DecidableEq

/-- State of the container engine as observed by the cleanup passes:
outcome and output of the `docker ps -a --filter name=n8n` listing,
which container names `docker inspect` recognises, which of those are
running, and which `docker rm -f` invocations exit nonzero. -/
structure World where
  psN8nFails : Bool
  psN8nStdout : List Char
  containerKnown : List Char → Bool
  containerRunning : List Char → Bool
  rmFails : List Char → Bool

/-- Output of Python truthiness of the running state format string. -/
def trueOut : List Char := "true".toList

/-- Exit code and stdout of each docker command against a world. -/
def execCmd (w : World) : DCmd → CmdResult
  | DCmd.psAllFilterN8n => ⟨if w.psN8nFails then 1 else 0, w.psN8nStdout⟩
  | DCmd.inspectRunning n =>
    if w.containerKnown n then ⟨0, if w.containerRunning n then trueOut else "false".toList⟩
    else ⟨1, []⟩
  | DCmd.inspectName n => if w.containerKnown n then ⟨0, n⟩ else ⟨1, []⟩
  | DCmd.rmF n => ⟨if w.rmFails n then 1 else 0, []⟩
  | DCmd.networkPruneF => ⟨0, []⟩

/-- Lines 19-37: `run_command(cmd, cwd=None, description=None)` runs the
command with `subprocess.run(..., check=True)` and re-raises
`CalledProcessError` on a nonzero exit code. -/
def run_command (w : World) (c : DCmd) : Except PyExc CmdResult :=
  let r := execCmd w c
  if r.returncode = 0 then Except.ok r else Except.error PyExc.calledProcessError

/-- The call sites at lines 124-126 and 196-198 invoke
`run_command(cmd, description=..., check=False)`.  `run_command` has no
parameter named `check`, so Python raises `TypeError` at the call itself,
before the command is executed. -/
def run_command_check_kwarg (_w : World) (_c : DCmd) : Except PyExc CmdResult :=
  Except.error PyExc.typeError

/-- Lines 107-111: the removal loop over the detected n8n container names.
`run_command` re-raises on failure and the loop body has no handler, so a
failing `docker rm -f` escapes the loop (reported in the second
component) and the names after it are never attempted. -/
def removeN8nLoop (w : World) : List (List Char) → List DCmd × Option PyExc
  | [] => ([], none)
  | n :: rest =>
    match run_command w (DCmd.rmF n) with
    | Except.error e => ([DCmd.rmF n], some e)
    | Except.ok _ =>
      let r := removeN8nLoop w rest
      (DCmd.rmF n :: r.1, r.2)

/-- Lines 117-120: the static allow-list of known service container names. -/
def conflictingContainers : List (List Char) :=
  ["ollama".toList, "flowise".toList, "qdrant".toList, "searxng".toList, "redis".toList,
   "clickhouse".toList, "minio".toList, "langfuse-web".toList, "langfuse-worker".toList]

/-- Lines 122-134: one iteration of the allow-list loop.  The iteration
calls `run_command(..., check=False)`, which raises `TypeError` before
`docker inspect` runs; the bare `except: pass` swallows it, so neither the
inspect nor the conditional removal is ever executed.  The `ok` branch
transcribes the unreachable lines 128-132. -/
def conflictingIteration (w : World) (n : List Char) : List DCmd :=
  match run_command_check_kwarg w (DCmd.inspectRunning n) with
  | Except.error _ => []
  | Except.ok r =>
    DCmd.inspectRunning n ::
      (if r.returncode = 0 ∧ containsSub trueOut r.stdout then [DCmd.rmF n] else [])

/-- Lines 93-139: `cleanup_stray_containers`.  Under the pass-wide
try-block: list n8n containers, remove each of them, then walk the
allow-list.  The returned value is the sequence of docker commands that
were actually executed; an exception escaping the n8n loop is caught by
the pass-wide handler, skipping the allow-list walk. -/
def cleanup_stray_containers (w : World) : List DCmd :=
  match run_command w DCmd.psAllFilterN8n with
  | Except.error _ => [DCmd.psAllFilterN8n]
  | Except.ok r =>
    let n8n_containers := if r.stdout.isEmpty then [] else stdoutLines r.stdout
    let n8n_containers := n8n_containers.filter (fun c => !c.isEmpty)
    let looped := removeN8nLoop w n8n_containers
    match looped.2 with
    | some _ => DCmd.psAllFilterN8n :: looped.1
    | none =>
      DCmd.psAllFilterN8n :: looped.1 ++
        (conflictingContainers.map (conflictingIteration w)).flatten

/-- Lines 170-190: the extended static list covering both stacks plus
legacy names. -/
def allContainers : List (List Char) :=
  ["localai-flowise-1".toList, "localai-open-webui-1".toList, "localai-n8n-1".toList,
   "localai-n8n-import-1".toList, "localai-qdrant-1".toList, "localai-neo4j-1".toList,
   "localai-caddy-1".toList, "localai-langfuse-worker-1".toList,
   "localai-langfuse-web-1".toList, "localai-clickhouse-1".toList, "localai-minio-1".toList,
   "localai-redis-1".toList, "localai-searxng-1".toList, "localai-ollama-cpu-1".toList,
   "localai-ollama-gpu-1".toList, "localai-ollama-gpu-amd-1".toList,
   "localai-ollama-pull-llama-cpu-1".toList, "localai-ollama-pull-llama-gpu-1".toList,
   "localai-ollama-pull-llama-gpu-amd-1".toList,
   "supabase-studio-1".toList, "supabase-kong-1".toList, "supabase-auth-1".toList,
   "supabase-rest-1".toList, "realtime-dev.supabase-realtime-1".toList,
   "supabase-storage-1".toList, "supabase-imgproxy-1".toList, "supabase-meta-1".toList,
   "supabase-edge-functions-1".toList, "supabase-analytics-1".toList, "supabase-db-1".toList,
   "supabase-vector-1".toList, "supabase-pooler-1".toList, "supabase-mail-1".toList,
   "n8n".toList, "ollama".toList, "ollama-pull-llama".toList, "flowise".toList,
   "open-webui".toList, "qdrant".toList, "caddy".toList, "redis".toList, "searxng".toList]

/-- Lines 193-209: one iteration of the comprehensive loop, wrapped in its
own `except Exception` handler.  Like the allow-list loop it passes
`check=False` to `run_command`, so `TypeError` is raised at the call,
caught by the per-iteration handler, and no command is executed.  The `ok`
branch transcribes the unreachable lines 200-206. -/
def comprehensiveIteration (w : World) (n : List Char) : List DCmd :=
  match run_command_check_kwarg w (DCmd.inspectName n) with
  | Except.error _ => []
  | Except.ok r =>
    DCmd.inspectName n :: (if r.returncode = 0 then [DCmd.rmF n] else [])

/-- Lines 165-219: `comprehensive_cleanup` walks the extended list with a
per-iteration handler, then prunes unused networks inside a try-block
whose failure is ignored (the prune command executes either way, so it
appears in the trace unconditionally). -/
def comprehensive_cleanup (w : World) : List DCmd :=
  (allContainers.map (comprehensiveIteration w)).flatten ++ [DCmd.networkPruneF]

/-! ### Startup command construction -/

/-- Lines 221-232: the dependent-stack command built by `start_local_ai`.
The profile flag is appended when the profile string is truthy and not
`none`; each override file is appended when the environment equals the
matching literal. -/
def start_local_ai_cmd (profile environment : Option String) : List String :=
  let cmd := ["docker", "compose", "-p", "localai"]
  let cmd := cmd ++
    (match profile with
     | some pr => if pr ≠ "" ∧ pr ≠ "none" then ["--profile", pr] else []
     | none => [])
  let cmd := cmd ++ ["-f", "docker-compose.yml"]
  let cmd := cmd ++
    (match environment with
     | some ev => if ev = "private" then ["-f", "docker-compose.override.private.yml"] else []
     | none => [])
  let cmd := cmd ++
    (match environment with
     | some ev => if ev = "public" then ["-f", "docker-compose.override.public.yml"] else []
     | none => [])
  cmd ++ ["up", "-d"]

/-- Lines 156-163: the dependency-stack command built by `start_supabase`;
the public override is layered on only for the public environment. -/
def start_supabase_cmd (environment : Option String) : List String :=
  let cmd := ["docker", "compose", "-p", "localai", "-f", "supabase/docker/docker-compose.yml"]
  let cmd := cmd ++
    (match environment with
     | some ev => if ev = "public" then ["-f", "docker-compose.override.public.supabase.yml"] else []
     | none => [])
  cmd ++ ["up", "-d"]

/-- Number of adjacent occurrences of the pair `flag, val` in a token
list. -/
def countPairs (flag val : String) : List String → Nat
  | [] => 0
  | [_] => 0
  | a :: b :: rest =>
    (if a = flag ∧ b = val then 1 else 0) + countPairs flag val (b :: rest)

/-! ### The main pipeline -/

/-- Observable events of a pipeline run, in order. -/
inductive Ev where
  | cloneRepo
  | pullRepo
  | copyEnv
  | genKey
  | fixCompose
  | checkContainers
  | stopAttempt (ok : Bool)
  | strayCleanup (cmds : List DCmd)
  | supabaseUp (ok : Bool)
  | sleepSeconds (n : Nat)
  | aiAttempt (cmd : List String) (ok : Bool)
  | comprehensiveCleanupRun (cmds : List DCmd)
  deriving DecidableEq

/-- Environment oracle for a whole pipeline run: which fatal-capable
external commands fail (by attempt index where retried), plus the oracles
and file states of the inner stages. -/
structure MainOracle where
  supabaseDirPresent : Bool
  gitFails : Bool
  envCopyFails : Bool
  gen : GenOracle
  searx : SearxFS
  probe : Probe
  compose : Option (List Char)
  world : World
  stopFails : Nat → Bool
  supFails : Bool
  aiFails : Nat → Bool

/-- Sequencing of two stages: the second runs only when the first did not
raise; traces concatenate. -/
def seqRun (a : List Ev × Option PyExc) (b : Unit → List Ev × Option PyExc) :
    List Ev × Option PyExc :=
  match a with
  | (t, some e) => (t, some e)
  | (t, none) => (t ++ (b ()).1, (b ()).2)

/-- Lines 39-56: clone (sparse checkout) when the directory is missing,
pull otherwise; the git commands of the taken branch are summarised by one
event; any git failure propagates. -/
def clone_supabase_repo_run (o : MainOracle) : List Ev × Option PyExc :=
  if o.supabaseDirPresent then
    if o.gitFails then ([Ev.pullRepo], some PyExc.calledProcessError)
    else ([Ev.pullRepo], none)
  else
    if o.gitFails then ([Ev.cloneRepo], some PyExc.calledProcessError)
    else ([Ev.cloneRepo], none)

/-- Lines 58-63: copy the root env file; a missing source raises and
propagates. -/
def prepare_supabase_env_run (o : MainOracle) : List Ev × Option PyExc :=
  if o.envCopyFails then ([Ev.copyEnv], some PyExc.osError) else ([Ev.copyEnv], none)

/-- The secret-provisioning stage as seen by `main`: it would abort the
pipeline only if `generate_searxng_secret_key` let an exception escape. -/
def generate_run (o : MainOracle) : List Ev × Option PyExc :=
  match generate_searxng_secret_key o.gen o.searx with
  | Except.ok _ => ([Ev.genKey], none)
  | Except.error e => ([Ev.genKey], some e)

/-- The compose-patch stage as seen by `main`; it handles all its errors
and always returns. -/
def fix_compose_run (o : MainOracle) : List Ev × Option PyExc :=
  let _ := check_and_fix_docker_compose_for_searxng o.probe o.compose
  ([Ev.fixCompose], none)

/-- Lines 65-91: the read-only container inventory; every error is
swallowed. -/
def check_existing_run (_o : MainOracle) : List Ev × Option PyExc :=
  ([Ev.checkContainers], none)

/-- Lines 141-154: tear down the project; on failure run
`cleanup_stray_containers` and retry once, letting a second failure
propagate. -/
def stop_existing_containers_run (o : MainOracle) : List Ev × Option PyExc :=
  if o.stopFails 0 then
    if o.stopFails 1 then
      ([Ev.stopAttempt false, Ev.strayCleanup (cleanup_stray_containers o.world),
        Ev.stopAttempt false], some PyExc.calledProcessError)
    else
      ([Ev.stopAttempt false, Ev.strayCleanup (cleanup_stray_containers o.world),
        Ev.stopAttempt true], none)
  else ([Ev.stopAttempt true], none)

/-- Lines 156-163: start the dependency stack; failure propagates with no
retry. -/
def start_supabase_run (o : MainOracle) : List Ev × Option PyExc :=
  if o.supFails then ([Ev.supabaseUp false], some PyExc.calledProcessError)
  else ([Ev.supabaseUp true], none)

/-- Lines 221-239: start the dependent stack; on `CalledProcessError` run
`comprehensive_cleanup` and retry the identical command once; a second
failure propagates. -/
def start_local_ai_run (o : MainOracle) (profile environment : Option String) :
    List Ev × Option PyExc :=
  let cmd := start_local_ai_cmd profile environment
  if o.aiFails 0 then
    if o.aiFails 1 then
      ([Ev.aiAttempt cmd false, Ev.comprehensiveCleanupRun (comprehensive_cleanup o.world),
        Ev.aiAttempt cmd false], some PyExc.calledProcessError)
    else
      ([Ev.aiAttempt cmd false, Ev.comprehensiveCleanupRun (comprehensive_cleanup o.world),
        Ev.aiAttempt cmd true], none)
  else ([Ev.aiAttempt cmd true], none)

/-- Lines 389-399 of `main`: every stage before the dependency stack is
started, in source order. -/
def main_before_supabase (o : MainOracle) (_profile : Option String) :
    List Ev × Option PyExc :=
  seqRun (clone_supabase_repo_run o) fun _ =>
  seqRun (prepare_supabase_env_run o) fun _ =>
  seqRun (generate_run o) fun _ =>
  seqRun (fix_compose_run o) fun _ =>
  seqRun (check_existing_run o) fun _ =>
  stop_existing_containers_run o

/-- Lines 381-409: the whole pipeline.  After the pre-stages, start the
dependency stack, sleep ten seconds unconditionally, then start the
dependent stack.  The second component is the uncaught exception (the
process exits nonzero exactly when it is not `none`). -/
def main_run (o : MainOracle) (profile environment : Option String) :
    List Ev × Option PyExc :=
  seqRun (main_before_supabase o profile) fun _ =>
  seqRun (start_supabase_run o) fun _ =>
  seqRun ([Ev.sleepSeconds 10], none) fun _ =>
  start_local_ai_run o profile environment

/-- Events that can appear in the trace before the dependency stack is
started: everything except the two stack starts and the settling sleep. -/
def isPreEv : Ev → Bool
  | Ev.supabaseUp _ => false
  | Ev.sleepSeconds _ => false
  | Ev.aiAttempt _ _ => false
  | _ => true

/-- Count of dependent-stack start attempts in a trace. -/
def countAiAttempts (tr : List Ev) : Nat :=
  tr.countP (fun ev => match ev with | Ev.aiAttempt _ _ => true | _ => false)

/-! ### Concrete demonstration inputs used by witnesses and counterexamples -/

/-- Probe outcome: a searxng container is listed as running, and the exec
probe reports the marker file absent by echoing the token not_found. -/
def probeMarkerAbsent : Probe :=
  { psRaises := false
    psStdout := "searxng\n".toList
    execRaises := false
    execStdout := "not_found\n".toList }

/-- Probe outcome: the ps listing itself raises. -/
def probeRaises : Probe :=
  { psRaises := true
    psStdout := []
    execRaises := false
    execStdout := [] }

/-- Compose file content carrying the active hardening directive. -/
def composeActiveDemo : List Char :=
  "services:\n  searxng:\n    cap_drop: - ALL\n".toList

/-- World with a known, running ollama container and no n8n containers. -/
def worldOllamaRunning : World :=
  { psN8nFails := false
    psN8nStdout := []
    containerKnown := fun n => n == "ollama".toList
    containerRunning := fun n => n == "ollama".toList
    rmFails := fun _ => false }

/-- World listing two n8n containers where removing the first one fails. -/
def worldN8nRmFail : World :=
  { psN8nFails := false
    psN8nStdout := "n8n-a\nn8n-b\n".toList
    containerKnown := fun _ => false
    containerRunning := fun _ => false
    rmFails := fun n => n == "n8n-a".toList }

/-- Quiet world: nothing listed, nothing fails. -/
def worldQuiet : World :=
  { psN8nFails := false
    psN8nStdout := []
    containerKnown := fun _ => false
    containerRunning := fun _ => false
    rmFails := fun _ => false }

/-- Fully succeeding generation oracle with a sixteen-character
lowercase-hex demonstration key. -/
def genOracleDemo : GenOracle :=
  { copyFails := false
    opensslFails := false
    key := "abcdef0123456789".toList
    sedFails := false }

/-- Settings state: template present, settings file present and still
carrying the placeholder. -/
def searxFSDemo : SearxFS :=
  { settingsBase := some "secret_key: ultrasecretkey\n".toList
    settings := some "secret_key: ultrasecretkey\n".toList }

/-- Settings state with the template missing. -/
def searxFSNoBase : SearxFS :=
  { settingsBase := none
    settings := none }

/-- Oracle for a run in which every external command succeeds. -/
def mainOracleDemo : MainOracle :=
  { supabaseDirPresent := true
    gitFails := false
    envCopyFails := false
    gen := genOracleDemo
    searx := searxFSNoBase
    probe := probeRaises
    compose := none
    world := worldQuiet
    stopFails := fun _ => false
    supFails := false
    aiFails := fun _ => false }

/-- Oracle in which only the first dependent-stack start attempt fails. -/
def mainOracleRetry : MainOracle :=
  { supabaseDirPresent := true
    gitFails := false
    envCopyFails := false
    gen := genOracleDemo
    searx := searxFSNoBase
    probe := probeRaises
    compose := none
    world := worldQuiet
    stopFails := fun _ => false
    supFails := false
    aiFails := fun k => k == 0 }

/-- Oracle in which both dependent-stack start attempts fail. -/
def mainOracleAiDown : MainOracle :=
  { supabaseDirPresent := true
    gitFails := false
    envCopyFails := false
    gen := genOracleDemo
    searx := searxFSNoBase
    probe := probeRaises
    compose := none
    world := worldQuiet
    stopFails := fun _ => false
    supFails := false
    aiFails := fun _ => true }

/-! ### Lemmas about the text primitives -/

theorem containsSub_iff (pat s : List Char) : containsSub pat s = true ↔ pat <:+: s := by
  induction s with
  | nil =>
    simp [containsSub, List.isEmpty_iff, List.infix_nil]
  | cons c rest ih =>
    simp only [containsSub, Bool.or_eq_true, List.isPrefixOf_iff_prefix, ih,
      List.infix_cons_iff]

/-- When the pattern occurs nowhere in the input, replacement is the
identity (this holds for any fuel value). -/
theorem replaceAllAux_of_not_infix (pat rep : List Char) :
    ∀ (fuel : Nat) (s : List Char), ¬ pat <:+: s → replaceAllAux pat rep fuel s = s := by
  intro fuel
  induction fuel with
  | zero =>
    intro s _
    cases s <;> rfl
  | succ n ih =>
    intro s hs
    cases s with
    | nil => rfl
    | cons c rest =>
      rw [replaceAllAux]
      rw [if_neg]
      · rw [ih rest (fun h => hs (List.infix_cons h))]
      · rintro ⟨-, hpre⟩
        exact hs ((List.isPrefixOf_iff_prefix.mp hpre).isInfix)

/-- Python `s.replace(pat, rep)` is the identity when `pat` does not occur
in `s`. -/
theorem replaceAll_of_not_infix (pat rep s : List Char) (h : ¬ pat <:+: s) :
    replaceAll pat rep s = s :=
  replaceAllAux_of_not_infix pat rep s.length s h

/-- Splitting a prefix of an append: either the prefix stays inside the
first part, or it swallows the first part whole and its remainder is a
prefix of the second part. -/
theorem prefix_append_cases {p X Y : List Char} (h : p <+: X ++ Y) :
    p <+: X ∨ (X <+: p ∧ p.drop X.length <+: Y) := by
  by_cases hle : p.length ≤ X.length
  · exact Or.inl (List.prefix_of_prefix_length_le h (List.prefix_append X Y) hle)
  · right
    have hXp : X <+: p :=
      List.prefix_of_prefix_length_le (List.prefix_append X Y) h (by omega)
    refine ⟨hXp, ?_⟩
    obtain ⟨q, hq⟩ := hXp
    obtain ⟨t, ht⟩ := h
    have hq2 : p.drop X.length = q := by
      rw [← hq, List.drop_left]
    rw [hq2]
    refine ⟨t, ?_⟩
    have : (X ++ q) ++ t = X ++ Y := by rw [hq, ht]
    rw [List.append_assoc] at this
    exact (List.append_cancel_left this)

theorem suffix_cons_lift {a : Char} {A L : List Char} (h : A <:+ L) : A <:+ a :: L := by
  obtain ⟨t, rfl⟩ := h
  exact ⟨a :: t, rfl⟩

/-- Splitting an occurrence inside an append: the occurrence lies in the
first part, lies in the second part, or straddles the junction, in which
case a nonempty initial piece of it is a suffix of the first part and the
rest is a prefix of the second part. -/
theorem infix_append_cases {p : List Char} :
    ∀ {X Y : List Char}, p <:+: X ++ Y →
      p <:+: X ∨ p <:+: Y ∨
        ∃ k, 0 < k ∧ k < p.length ∧ p.take k <:+ X ∧ p.drop k <+: Y := by
  intro X
  induction X with
  | nil =>
    intro Y h
    exact Or.inr (Or.inl h)
  | cons x X2 ih =>
    intro Y h
    rw [List.cons_append] at h
    rcases List.infix_cons_iff.mp h with hp | hi
    · rw [← List.cons_append] at hp
      rcases prefix_append_cases hp with h1 | ⟨h1, h2⟩
      · exact Or.inl h1.isInfix
      · by_cases hk : (x :: X2).length < p.length
        · refine Or.inr (Or.inr ⟨(x :: X2).length, by simp, hk, ?_, h2⟩)
          have : p.take (x :: X2).length = x :: X2 :=
            (List.prefix_iff_eq_take.mp h1).symm
          rw [this]
        · have hlen : (x :: X2).length = p.length :=
            Nat.le_antisymm h1.length_le (by omega)
          have : p = x :: X2 := (h1.eq_of_length hlen).symm
          exact Or.inl (this ▸ List.infix_rfl)
    · rcases ih hi with h1 | h1 | ⟨k, hk0, hklt, htake, hdrop⟩
      · exact Or.inl (List.infix_cons h1)
      · exact Or.inr (Or.inl h1)
      · exact Or.inr (Or.inr ⟨k, hk0, hklt, suffix_cons_lift htake, hdrop⟩)

/-- Core invariant of left-to-right global replacement: when the first and
last characters of the (nonempty) pattern do not occur in the replacement
text and the replacement is at least as long as the pattern, the output
contains no occurrence of the pattern; moreover any proper nonempty final
piece of the pattern that starts the output already started the input. -/
theorem replaceAllAux_inv (pat rep : List Char)
    (hhd : ∀ c, pat.head? = some c → c ∉ rep)
    (hlast : ∀ c, pat.getLast? = some c → c ∉ rep)
    (hne : pat ≠ [])
    (hlen : pat.length ≤ rep.length) :
    ∀ (fuel : Nat) (s : List Char), s.length ≤ fuel →
      (¬ pat <:+: replaceAllAux pat rep fuel s) ∧
      (∀ k, 0 < k → k < pat.length →
        pat.drop k <+: replaceAllAux pat rep fuel s → pat.drop k <+: s) := by
  intro fuel
  induction fuel with
  | zero =>
    intro s hs
    have : s = [] := List.length_eq_zero.mp (Nat.le_zero.mp hs)
    subst this
    constructor
    · intro h
      exact hne (List.infix_nil.mp h)
    · intro k hk0 hklt h
      have := (List.prefix_nil.mp h)
      have := congrArg List.length this
      simp at this
      omega
  | succ n ih =>
    intro s hs
    cases s with
    | nil =>
      constructor
      · intro h
        exact hne (List.infix_nil.mp h)
      · intro k hk0 hklt h
        have := (List.prefix_nil.mp h)
        have := congrArg List.length this
        simp at this
        omega
    | cons c rest =>
      have hpatpos : 0 < pat.length := List.length_pos.mpr hne
      obtain ⟨p0, pt, rfl⟩ : ∃ p0 pt, pat = p0 :: pt := by
        cases pat with
        | nil => exact absurd rfl hne
        | cons a b => exact ⟨a, b, rfl⟩
      have hhd0 : p0 ∉ rep := hhd p0 rfl
      simp only [List.length_cons] at hs
      by_cases hc : p0 :: pt ≠ [] ∧ (p0 :: pt).isPrefixOf (c :: rest)
      · have hstep :
            replaceAllAux (p0 :: pt) rep (n + 1) (c :: rest) =
              rep ++ replaceAllAux (p0 :: pt) rep n
                (List.drop (p0 :: pt).length (c :: rest)) := by
          rw [replaceAllAux, if_pos hc]
        have hD : (List.drop (p0 :: pt).length (c :: rest)).length ≤ n := by
          simp only [List.length_drop, List.length_cons]
          simp only [List.length_cons] at hpatpos ⊢
          omega
        obtain ⟨ih1, ih2⟩ := ih (List.drop (p0 :: pt).length (c :: rest)) hD
        constructor
        · rw [hstep]
          intro hinf
          rcases infix_append_cases hinf with h1 | h1 | ⟨k, hk0, hklt, htake, hdrop⟩
          · exact hhd0 (h1.subset (List.mem_cons_self p0 pt))
          · exact ih1 h1
          · have hmem : p0 ∈ (p0 :: pt).take k := by
              cases k with
              | zero => omega
              | succ m => simp [List.take_succ_cons]
            exact hhd0 (htake.subset hmem)
        · intro k hk0 hklt h
          rw [hstep] at h
          exfalso
          rcases prefix_append_cases h with h1 | ⟨h1, h2⟩
          · have hdne : (p0 :: pt).drop k ≠ [] := by
              intro hnil
              have := congrArg List.length hnil
              simp only [List.length_drop, List.length_nil] at this
              omega
            have hgl : ((p0 :: pt).drop k).getLast? = (p0 :: pt).getLast? := by
              conv_rhs => rw [← List.take_append_drop k (p0 :: pt)]
              rw [List.getLast?_append_of_ne_nil _ hdne]
            have hsome := List.getLast?_eq_getLast ((p0 :: pt).drop k) hdne
            have hinrep : ((p0 :: pt).drop k).getLast hdne ∈ rep :=
              h1.subset (List.mem_of_mem_getLast? hsome)
            exact hlast _ (hgl ▸ hsome) hinrep
          · have := h1.length_le
            simp only [List.length_drop] at this
            omega
      · have hstep :
            replaceAllAux (p0 :: pt) rep (n + 1) (c :: rest) =
              c :: replaceAllAux (p0 :: pt) rep n rest := by
          rw [replaceAllAux, if_neg hc]
        have hnp : ¬ (p0 :: pt) <+: c :: rest := by
          intro hp
          exact hc ⟨hne, List.isPrefixOf_iff_prefix.mpr hp⟩
        obtain ⟨ih1, ih2⟩ := ih rest (by omega)
        constructor
        · rw [hstep]
          intro hinf
          rcases List.infix_cons_iff.mp hinf with hp | hi
          · rcases List.cons_prefix_cons.mp hp with ⟨he, hpt⟩
            cases pt with
            | nil =>
              exact hnp (List.cons_prefix_cons.mpr ⟨he, List.nil_prefix⟩)
            | cons q qt =>
              have hlt : 1 < (p0 :: q :: qt).length := by
                simp only [List.length_cons]
                omega
              have h2 := ih2 1 one_pos hlt hpt
              exact hnp (List.cons_prefix_cons.mpr ⟨he, h2⟩)
          · exact ih1 hi
        · intro k hk0 hklt h
          rw [hstep] at h
          have hdropeq : (p0 :: pt).drop k = (p0 :: pt)[k] :: (p0 :: pt).drop (k + 1) :=
            List.drop_eq_getElem_cons hklt
          rw [hdropeq] at h
          rcases List.cons_prefix_cons.mp h with ⟨hck, htail⟩
          by_cases hk1 : k + 1 < (p0 :: pt).length
          · have h2 := ih2 (k + 1) (by omega) hk1 htail
            rw [hdropeq]
            exact List.cons_prefix_cons.mpr ⟨hck, h2⟩
          · have hnil : (p0 :: pt).drop (k + 1) = [] :=
              List.drop_eq_nil_of_le (by omega)
            rw [hdropeq, hnil]
            exact List.cons_prefix_cons.mpr ⟨hck, List.nil_prefix⟩

/-- After a global replacement whose replacement text is at least as long as
the (nonempty) pattern and contains neither the first nor the last pattern
character, the pattern does not occur in the result. -/
theorem replaceAll_not_infix (pat rep s : List Char)
    (hhd : ∀ c, pat.head? = some c → c ∉ rep)
    (hlast : ∀ c, pat.getLast? = some c → c ∉ rep)
    (hne : pat ≠ [])
    (hlen : pat.length ≤ rep.length) :
    ¬ pat <:+: replaceAll pat rep s :=
  (replaceAllAux_inv pat rep hhd hlast hne hlen s.length s le_rfl).1

/-! ### Claim C1 -/

/-- C1, failing input: the compose file holds the active directive
`cap_drop: - ALL`, a searxng container is running, and the marker file
`/etc/searxng/uwsgi.ini` is absent, so the probe echoes `not_found`.  No
running container exposes the marker, so the claim requires the file to be
rewritten into sentinel form; but because the token `found` is a substring
of `not_found`, the script concludes the run is already initialized and
leaves the file untouched: no sentinel is ever written. -/
theorem searxng_probe_misreads_not_found :
    containsSub foundToken probeMarkerAbsent.execStdout = true ∧
    searxng_is_first_run probeMarkerAbsent = false ∧
    containsSub capDropActive composeActiveDemo = true ∧
    check_and_fix_docker_compose_for_searxng probeMarkerAbsent (some composeActiveDemo) =
      (some composeActiveDemo, []) ∧
    containsSub capDropSentinel composeActiveDemo = false := by
  refine ⟨rfl, rfl, rfl, rfl, rfl⟩

/-! ### Claim C2 -/

/-- C2, failing input: a known, running `ollama` container.  Because both
cleanup passes call `run_command` with the unsupported keyword `check`,
every allow-list and comprehensive iteration raises `TypeError` before any
docker command runs, and the exception is swallowed; neither pass ever
issues a `docker rm -f`.  The comprehensive pass issues only the network
prune, for every possible world. -/
theorem cleanup_never_removes_allow_list :
    worldOllamaRunning.containerKnown ("ollama".toList) = true ∧
    worldOllamaRunning.containerRunning ("ollama".toList) = true ∧
    cleanup_stray_containers worldOllamaRunning = [DCmd.psAllFilterN8n] ∧
    (∀ w : World, comprehensive_cleanup w = [DCmd.networkPruneF]) := by
  refine ⟨rfl, rfl, rfl, fun w => rfl⟩

/-! ### Claim C3 -/

/-- C3, counterexample: in the world `worldN8nRmFail` the pass processes
the container sequence `n8n-a`, `n8n-b`; force-removing `n8n-a` fails, and
`n8n-b` is never attempted (no `docker rm -f n8n-b` appears in the trace),
so removals within this pass are not mutually independent. -/
theorem n8n_removal_failure_aborts_pass :
    stdoutLines worldN8nRmFail.psN8nStdout = ["n8n-a".toList, "n8n-b".toList] ∧
    worldN8nRmFail.rmFails ("n8n-a".toList) = true ∧
    cleanup_stray_containers worldN8nRmFail =
      [DCmd.psAllFilterN8n, DCmd.rmF ("n8n-a".toList)] ∧
    DCmd.rmF ("n8n-b".toList) ∉ cleanup_stray_containers worldN8nRmFail := by
  refine ⟨rfl, rfl, rfl, by decide⟩

/-- C3, amended: each comprehensive-pass iteration runs under its own
handler, so no failure there prevents processing the rest of the list and
the pass always reaches the network prune (with the check-keyword
`TypeError` swallowed per iteration, an iteration executes no command at
all); but the n8n-removal loop of `cleanup_stray_containers` runs under
the pass-level handler: once a removal fails, exactly the names up to and
including the failing one have been attempted and the rest never are. -/
theorem removal_independence_amended (w : World) (l1 l2 : List (List Char)) (n : List Char)
    (hok : ∀ m ∈ l1, w.rmFails m = false) (hfail : w.rmFails n = true) :
    removeN8nLoop w (l1 ++ n :: l2) =
      ((l1 ++ [n]).map DCmd.rmF, some PyExc.calledProcessError) ∧
    (∀ (w2 : World) (m : List Char), comprehensiveIteration w2 m = []) ∧
    (∀ w2 : World, DCmd.networkPruneF ∈ comprehensive_cleanup w2) := by
  refine ⟨?_, fun w2 m => rfl, fun w2 => by simp [comprehensive_cleanup]⟩
  induction l1 with
  | nil =>
    simp [removeN8nLoop, run_command, execCmd, hfail]
  | cons a t ih =>
    have ha : w.rmFails a = false := hok a (List.mem_cons_self a t)
    have ih2 := ih (fun m hm => hok m (List.mem_cons_of_mem a hm))
    simp [removeN8nLoop, run_command, execCmd, ha, ih2]

/-- Witness for the amended C3 theorem at the concrete counterexample
world. -/
theorem removal_independence_amended_witness :
    removeN8nLoop worldN8nRmFail (([] : List (List Char)) ++ "n8n-a".toList :: ["n8n-b".toList]) =
      (([] ++ ["n8n-a".toList]).map DCmd.rmF, some PyExc.calledProcessError) :=
  (removal_independence_amended worldN8nRmFail [] ["n8n-b".toList] ("n8n-a".toList)
    (by intro m hm; cases hm) rfl).1

/-! ### Claim C4 -/

/-- The secret-provisioning stage handles every internal exception and
returns normally for every oracle and file state. -/
theorem gen_always_ok (o : GenOracle) (fs : SearxFS) :
    ∃ r, generate_searxng_secret_key o fs = Except.ok r := by
  unfold generate_searxng_secret_key genInjectKey opensslRandHex32 sedReplaceInSettings
  repeat' split
  all_goals exact ⟨_, rfl⟩

/-- A settings file that no longer contains the placeholder is left
byte-identical by any run of the stage (the substitution, if it executes
at all, is the identity). -/
theorem genResult_keeps_tokenless_settings (o : GenOracle) (fs : SearxFS) (s : List Char)
    (hset : fs.settings = some s) (hno : ¬ ultrasecretkey <:+: s) :
    ((genResult o fs).1).settings = some s := by
  cases hb : fs.settingsBase with
  | none => simp [genResult, generate_searxng_secret_key, hb, hset]
  | some base =>
    by_cases h2 : o.opensslFails
    · simp [genResult, generate_searxng_secret_key, genInjectKey, opensslRandHex32,
        hb, hset, h2]
    · by_cases h3 : o.sedFails
      · simp [genResult, generate_searxng_secret_key, genInjectKey, opensslRandHex32,
          sedReplaceInSettings, hb, hset, h2, h3]
      · simp [genResult, generate_searxng_secret_key, genInjectKey, opensslRandHex32,
          sedReplaceInSettings, hb, hset, h2, h3,
          replaceAll_of_not_infix _ _ _ hno]

/-- On a run in which the template is present and every external operation
succeeds, the stage ends with the settings file equal to the previous
settings content (or, when the file was missing, the template content)
with every placeholder occurrence replaced by the generated key. -/
theorem genResult_success_settings (o : GenOracle) (fs : SearxFS) (base : List Char)
    (hb : fs.settingsBase = some base)
    (h1 : o.copyFails = false) (h2 : o.opensslFails = false) (h3 : o.sedFails = false) :
    ((genResult o fs).1).settingsBase = some base ∧
    ((genResult o fs).1).settings =
      some (replaceAll ultrasecretkey o.key (fs.settings.getD base)) := by
  cases hset : fs.settings with
  | none =>
    simp [genResult, generate_searxng_secret_key, genInjectKey, opensslRandHex32,
      sedReplaceInSettings, hb, hset, h1, h2, h3]
  | some s =>
    simp [genResult, generate_searxng_secret_key, genInjectKey, opensslRandHex32,
      sedReplaceInSettings, hb, hset, h1, h2, h3]

/-- C4: after a first run (template present, all operations succeeding,
the generated key being lowercase hex of the usual length), a second run
with any oracle leaves the settings file byte-identical, and no run ever
reintroduces the placeholder token into a settings file that lacks it. -/
theorem secret_provisioning_idempotent (fs : SearxFS) (o1 : GenOracle) (base : List Char)
    (hb : fs.settingsBase = some base)
    (h1 : o1.copyFails = false) (h2 : o1.opensslFails = false) (h3 : o1.sedFails = false)
    (hkey : ∀ c ∈ o1.key, c ∈ hexLowerChars) (hklen : 14 ≤ o1.key.length) :
    (∀ o2 : GenOracle,
      ((genResult o2 (genResult o1 fs).1).1).settings = ((genResult o1 fs).1).settings) ∧
    (∀ (o : GenOracle) (fsx : SearxFS) (s : List Char), fsx.settings = some s →
      ¬ ultrasecretkey <:+: s → ((genResult o fsx).1).settings = some s) := by
  have hnotin : ∀ s : List Char, ¬ ultrasecretkey <:+: replaceAll ultrasecretkey o1.key s := by
    intro s
    apply replaceAll_not_infix
    · intro c hc
      have hcu : c = 'u' := by
        have hh : ultrasecretkey.head? = some 'u' := rfl
        rw [hh] at hc
        exact (Option.some_inj.mp hc).symm
      subst hcu
      intro hmem
      exact absurd (hkey _ hmem) (by decide)
    · intro c hc
      have hcy : c = 'y' := by
        have hh : ultrasecretkey.getLast? = some 'y' := rfl
        rw [hh] at hc
        exact (Option.some_inj.mp hc).symm
      subst hcy
      intro hmem
      exact absurd (hkey _ hmem) (by decide)
    · decide
    · have hl : ultrasecretkey.length = 14 := rfl
      omega
  obtain ⟨hb1, hs1⟩ := genResult_success_settings o1 fs base hb h1 h2 h3
  constructor
  · intro o2
    rw [hs1]
    exact genResult_keeps_tokenless_settings o2 _ _ hs1 (hnotin _)
  · intro o fsx s hset hno
    exact genResult_keeps_tokenless_settings o fsx s hset hno

/-- Witness for C4 at a concrete settings file and key. -/
theorem secret_provisioning_idempotent_witness :
    ((genResult genOracleDemo (genResult genOracleDemo searxFSDemo).1).1).settings =
      ((genResult genOracleDemo searxFSDemo).1).settings :=
  (secret_provisioning_idempotent searxFSDemo genOracleDemo
      ("secret_key: ultrasecretkey\n".toList) rfl rfl rfl rfl (by decide) (by decide)).1
    genOracleDemo

/-! ### Claim C5 -/

/-- C5: for each supported profile value, the dependent-stack command
contains the flag `--profile` exactly once, immediately followed by that
value (one adjacent pair); with profile `none` the flag is absent. -/
theorem profile_flag_exactly_once (p : String) (hp : p ∈ ["cpu", "gpu-nvidia", "gpu-amd"])
    (e : Option String) (he : e ∈ [some "private", some "public"]) :
    (start_local_ai_cmd (some p) e).count "--profile" = 1 ∧
    countPairs "--profile" p (start_local_ai_cmd (some p) e) = 1 ∧
    (start_local_ai_cmd (some "none") e).count "--profile" = 0 := by
  fin_cases hp <;> fin_cases he <;> exact ⟨rfl, rfl, rfl⟩

/-- Witness for C5 at profile cpu, private environment. -/
theorem profile_flag_exactly_once_witness :
    (start_local_ai_cmd (some "cpu") (some "private")).count "--profile" = 1 ∧
    countPairs "--profile" "cpu" (start_local_ai_cmd (some "cpu") (some "private")) = 1 ∧
    (start_local_ai_cmd (some "none") (some "private")).count "--profile" = 0 :=
  profile_flag_exactly_once "cpu" (by decide) (some "private") (by decide)

/-! ### Claim C6 -/

/-- C6: the dependent-stack command carries exactly the override file
matching the environment (private override for `private`, public override
for `public`, never both), and the dependency-stack command carries its
public override exactly when the environment is `public`. -/
theorem override_selection (p : String) (hp : p ∈ ["cpu", "gpu-nvidia", "gpu-amd", "none"])
    (e : String) (he : e ∈ ["private", "public"]) :
    (start_local_ai_cmd (some p) (some e)).count "docker-compose.override.private.yml" =
      (if e = "private" then 1 else 0) ∧
    (start_local_ai_cmd (some p) (some e)).count "docker-compose.override.public.yml" =
      (if e = "public" then 1 else 0) ∧
    (start_supabase_cmd (some e)).count "docker-compose.override.public.supabase.yml" =
      (if e = "public" then 1 else 0) := by
  fin_cases hp <;> fin_cases he <;> exact ⟨rfl, rfl, rfl⟩

/-- Witness for C6 at profile cpu, public environment. -/
theorem override_selection_witness :
    (start_local_ai_cmd (some "cpu") (some "public")).count
      "docker-compose.override.private.yml" = (if "public" = "private" then 1 else 0) ∧
    (start_local_ai_cmd (some "cpu") (some "public")).count
      "docker-compose.override.public.yml" = (if "public" = "public" then 1 else 0) ∧
    (start_supabase_cmd (some "public")).count
      "docker-compose.override.public.supabase.yml" = (if "public" = "public" then 1 else 0) :=
  override_selection "cpu" (by decide) "public" (by decide)

/-! ### Claim C7 -/

/-- C7: when the first dependent-stack start fails, the comprehensive
cleanup runs and the identical command is retried exactly once; a second
failure propagates out of `start_local_ai` and aborts the pipeline run
with an uncaught exception; no third attempt exists in any run. -/
theorem ai_startup_retry (o : MainOracle) (p e : Option String) :
    (o.aiFails 0 = false →
      start_local_ai_run o p e = ([Ev.aiAttempt (start_local_ai_cmd p e) true], none)) ∧
    (o.aiFails 0 = true → o.aiFails 1 = false →
      start_local_ai_run o p e =
        ([Ev.aiAttempt (start_local_ai_cmd p e) false,
          Ev.comprehensiveCleanupRun (comprehensive_cleanup o.world),
          Ev.aiAttempt (start_local_ai_cmd p e) true], none)) ∧
    (o.aiFails 0 = true → o.aiFails 1 = true →
      start_local_ai_run o p e =
        ([Ev.aiAttempt (start_local_ai_cmd p e) false,
          Ev.comprehensiveCleanupRun (comprehensive_cleanup o.world),
          Ev.aiAttempt (start_local_ai_cmd p e) false], some PyExc.calledProcessError) ∧
      ((main_before_supabase o p).2 = none → o.supFails = false →
        (main_run o p e).2 = some PyExc.calledProcessError)) ∧
    countAiAttempts (start_local_ai_run o p e).1 ≤ 2 := by
  refine ⟨?_, ?_, ?_, ?_⟩
  · intro h0
    simp [start_local_ai_run, h0]
  · intro h0 h1
    simp [start_local_ai_run, h0, h1]
  · intro h0 h1
    refine ⟨by simp [start_local_ai_run, h0, h1], ?_⟩
    intro hpre hsup
    rcases hm : main_before_supabase o p with ⟨t, err⟩
    rw [hm] at hpre
    simp only at hpre
    subst hpre
    simp [main_run, seqRun, hm, start_supabase_run, hsup, start_local_ai_run, h0, h1]
  · by_cases h0 : o.aiFails 0 <;> by_cases h1 : o.aiFails 1 <;>
      simp [start_local_ai_run, countAiAttempts, h0, h1, List.countP_cons]

/-- Witness for C7: with only the first attempt failing, the run is the
attempt, the cleanup, and the successful identical retry. -/
theorem ai_startup_retry_witness :
    start_local_ai_run mainOracleRetry (some "cpu") (some "private") =
      ([Ev.aiAttempt (start_local_ai_cmd (some "cpu") (some "private")) false,
        Ev.comprehensiveCleanupRun (comprehensive_cleanup mainOracleRetry.world),
        Ev.aiAttempt (start_local_ai_cmd (some "cpu") (some "private")) true], none) :=
  (ai_startup_retry mainOracleRetry (some "cpu") (some "private")).2.1 rfl rfl

/-! ### Claim C8 -/

/-- C8: no failure inside secret provisioning escapes the stage.  A
missing template yields a warning and an unchanged state; a failing
template copy yields a logged error and an unchanged state; a failure of
key generation or substitution yields the logged remediation message while
the settings content stays what it was after the (successful or skipped)
copy.  In every case the stage returns normally. -/
theorem secret_stage_nonfatal (o : GenOracle) (fs : SearxFS) :
    (∃ r, generate_searxng_secret_key o fs = Except.ok r) ∧
    (fs.settingsBase = none →
      generate_searxng_secret_key o fs = Except.ok (fs, [GenEvent.warnBaseMissing])) ∧
    (∀ base, fs.settingsBase = some base → fs.settings = none → o.copyFails = true →
      generate_searxng_secret_key o fs = Except.ok (fs, [GenEvent.errCreatingSettings])) ∧
    (∀ base, fs.settingsBase = some base → o.copyFails = false →
      (o.opensslFails = true ∨ o.sedFails = true) →
      ∃ fs2 evs, generate_searxng_secret_key o fs = Except.ok (fs2, evs) ∧
        GenEvent.errSecretKey ∈ evs ∧ fs2.settings = some (fs.settings.getD base)) := by
  refine ⟨gen_always_ok o fs, ?_, ?_, ?_⟩
  · intro hb
    simp [generate_searxng_secret_key, hb]
  · intro base hb hset hcopy
    simp [generate_searxng_secret_key, hb, hset, hcopy]
  · intro base hb hcopy hfail
    cases hset : fs.settings with
    | none =>
      refine ⟨{ fs with settings := some base },
        [GenEvent.createdFromBase, GenEvent.errSecretKey], ?_, by simp, by simp [hset]⟩
      by_cases h2 : o.opensslFails
      · simp [generate_searxng_secret_key, genInjectKey, opensslRandHex32, hb, hset, hcopy, h2]
      · rcases hfail with hf | hf
        · exact absurd hf h2
        · simp [generate_searxng_secret_key, genInjectKey, opensslRandHex32,
            sedReplaceInSettings, hb, hset, hcopy, h2, hf]
    | some s =>
      refine ⟨fs, [GenEvent.settingsExisted, GenEvent.errSecretKey], ?_, by simp,
        by simp [hset]⟩
      by_cases h2 : o.opensslFails
      · simp [generate_searxng_secret_key, genInjectKey, opensslRandHex32, hb, hset, h2]
      · rcases hfail with hf | hf
        · exact absurd hf h2
        · simp [generate_searxng_secret_key, genInjectKey, opensslRandHex32,
            sedReplaceInSettings, hb, hset, h2, hf]

/-- Witness for C8: with the template missing the stage warns and returns
normally. -/
theorem secret_stage_nonfatal_witness :
    generate_searxng_secret_key genOracleDemo searxFSNoBase =
      Except.ok (searxFSNoBase, [GenEvent.warnBaseMissing]) :=
  (secret_stage_nonfatal genOracleDemo searxFSNoBase).2.1 rfl

/-! ### Claim C9 -/

theorem seqRun_events (a : List Ev × Option PyExc) (b : Unit → List Ev × Option PyExc)
    (P : Ev → Bool) (ha : ∀ ev ∈ a.1, P ev = true) (hb : ∀ ev ∈ (b ()).1, P ev = true) :
    ∀ ev ∈ (seqRun a b).1, P ev = true := by
  rcases a with ⟨t, err⟩
  cases err with
  | some e => simpa [seqRun] using ha
  | none =>
    intro ev hev
    simp only [seqRun] at hev
    rcases List.mem_append.mp hev with h | h
    · exact ha ev h
    · exact hb ev h

theorem clone_events (o : MainOracle) :
    ∀ ev ∈ (clone_supabase_repo_run o).1, isPreEv ev = true := by
  unfold clone_supabase_repo_run
  by_cases h1 : o.supabaseDirPresent <;> by_cases h2 : o.gitFails <;> simp [h1, h2, isPreEv]

theorem prep_events (o : MainOracle) :
    ∀ ev ∈ (prepare_supabase_env_run o).1, isPreEv ev = true := by
  unfold prepare_supabase_env_run
  by_cases h : o.envCopyFails <;> simp [h, isPreEv]

theorem generate_events (o : MainOracle) :
    ∀ ev ∈ (generate_run o).1, isPreEv ev = true := by
  obtain ⟨r, hr⟩ := gen_always_ok o.gen o.searx
  unfold generate_run
  simp [hr, isPreEv]

theorem fixc_events (o : MainOracle) :
    ∀ ev ∈ (fix_compose_run o).1, isPreEv ev = true := by
  simp [fix_compose_run, isPreEv]

theorem checkc_events (o : MainOracle) :
    ∀ ev ∈ (check_existing_run o).1, isPreEv ev = true := by
  simp [check_existing_run, isPreEv]

theorem stop_events (o : MainOracle) :
    ∀ ev ∈ (stop_existing_containers_run o).1, isPreEv ev = true := by
  unfold stop_existing_containers_run
  by_cases h0 : o.stopFails 0 <;> by_cases h1 : o.stopFails 1 <;> simp [h0, h1, isPreEv]

/-- Every event preceding the dependency-stack start is a preparation
event: no sleep, no stack start appears among them. -/
theorem mainPre_events (o : MainOracle) (p : Option String) :
    ∀ ev ∈ (main_before_supabase o p).1, isPreEv ev = true :=
  seqRun_events _ _ _ (clone_events o)
    (seqRun_events _ _ _ (prep_events o)
      (seqRun_events _ _ _ (generate_events o)
        (seqRun_events _ _ _ (fixc_events o)
          (seqRun_events _ _ _ (checkc_events o) (stop_events o)))))

/-- C9: in every successful run the trace decomposes as preparation
events, then the successful dependency-stack start, then the unconditional
ten-second sleep, then immediately the first dependent-stack start
attempt; and in every run in which the dependency stack came up, the
ten-second sleep occurs. -/
theorem ordered_startup_sleep (o : MainOracle) (p e : Option String) :
    ((main_run o p e).2 = none →
      ∃ t1 b t2, (main_run o p e).1 =
        t1 ++ Ev.supabaseUp true :: Ev.sleepSeconds 10 ::
          Ev.aiAttempt (start_local_ai_cmd p e) b :: t2 ∧
        ∀ ev ∈ t1, isPreEv ev = true) ∧
    (Ev.supabaseUp true ∈ (main_run o p e).1 →
      Ev.sleepSeconds 10 ∈ (main_run o p e).1) := by
  have hpre := mainPre_events o p
  rcases hm : main_before_supabase o p with ⟨t, err⟩
  rw [hm] at hpre
  cases err with
  | some ex =>
    have hmain : main_run o p e = (t, some ex) := by
      simp [main_run, seqRun, hm]
    rw [hmain]
    constructor
    · intro h
      simp at h
    · intro hmem
      exact absurd (hpre _ hmem) (by simp [isPreEv])
  | none =>
    cases hsup : o.supFails with
    | true =>
      have hmain : main_run o p e =
          (t ++ [Ev.supabaseUp false], some PyExc.calledProcessError) := by
        simp [main_run, seqRun, hm, start_supabase_run, hsup]
      rw [hmain]
      constructor
      · intro h
        simp at h
      · intro hmem
        rcases List.mem_append.mp hmem with h | h
        · exact absurd (hpre _ h) (by simp [isPreEv])
        · simp at h
    | false =>
      by_cases h0 : o.aiFails 0
      · by_cases h1 : o.aiFails 1
        · have hmain : main_run o p e =
              (t ++ Ev.supabaseUp true :: Ev.sleepSeconds 10 ::
                Ev.aiAttempt (start_local_ai_cmd p e) false ::
                [Ev.comprehensiveCleanupRun (comprehensive_cleanup o.world),
                 Ev.aiAttempt (start_local_ai_cmd p e) false],
               some PyExc.calledProcessError) := by
            simp [main_run, seqRun, hm, start_supabase_run, hsup, start_local_ai_run, h0, h1]
          rw [hmain]
          constructor
          · intro h
            simp at h
          · intro _
            simp
        · have hmain : main_run o p e =
              (t ++ Ev.supabaseUp true :: Ev.sleepSeconds 10 ::
                Ev.aiAttempt (start_local_ai_cmd p e) false ::
                [Ev.comprehensiveCleanupRun (comprehensive_cleanup o.world),
                 Ev.aiAttempt (start_local_ai_cmd p e) true], none) := by
            simp [main_run, seqRun, hm, start_supabase_run, hsup, start_local_ai_run, h0, h1]
          rw [hmain]
          constructor
          · intro _
            exact ⟨t, false,
              [Ev.comprehensiveCleanupRun (comprehensive_cleanup o.world),
               Ev.aiAttempt (start_local_ai_cmd p e) true], rfl,
              fun ev hev => hpre ev hev⟩
          · intro _
            simp
      · have hmain : main_run o p e =
            (t ++ Ev.supabaseUp true :: Ev.sleepSeconds 10 ::
              [Ev.aiAttempt (start_local_ai_cmd p e) true], none) := by
          simp [main_run, seqRun, hm, start_supabase_run, hsup, start_local_ai_run, h0]
        rw [hmain]
        constructor
        · intro _
          exact ⟨t, true, [], rfl, fun ev hev => hpre ev hev⟩
        · intro _
          simp

/-- Witness for C9 at an all-success run: the dependency stack came up, so
the ten-second sleep occurs in the trace. -/
theorem ordered_startup_sleep_witness :
    Ev.sleepSeconds 10 ∈ (main_run mainOracleDemo (some "cpu") (some "private")).1 :=
  (ordered_startup_sleep mainOracleDemo (some "cpu") (some "private")).2 (by decide)

/-! ### Claim C10 -/

/-- C10: with the compose file absent the function only warns (creating
nothing), and whenever the state the probe computed calls for a directive
that the content does not contain, no write happens and the content is
returned byte-for-byte unchanged. -/
theorem compose_patch_frame (p : Probe) :
    (check_and_fix_docker_compose_for_searxng p none =
      (none, [FixEvent.warnComposeMissing])) ∧
    (∀ content : List Char,
      (searxng_is_first_run p = true → containsSub capDropActive content = false) →
      (searxng_is_first_run p = false → containsSub capDropSentinel content = false) →
      check_and_fix_docker_compose_for_searxng p (some content) = (some content, [])) := by
  constructor
  · rfl
  · intro content h1 h2
    cases hfr : searxng_is_first_run p with
    | false =>
      simp [check_and_fix_docker_compose_for_searxng, hfr, h2 hfr]
    | true =>
      simp [check_and_fix_docker_compose_for_searxng, hfr, h1 hfr]

/-- Witness for C10: a failing probe with content lacking the directive is
left unchanged with no write. -/
theorem compose_patch_frame_witness :
    check_and_fix_docker_compose_for_searxng probeRaises (some ("services:\n".toList)) =
      (some ("services:\n".toList), []) :=
  (compose_patch_frame probeRaises).2 ("services:\n".toList) (by decide) (by decide)

end StartServices
